import Mathlib

/-!
Shallow embedding of the simulator server (src/server/src) for verification:
rng.js, simulator.js, cityModel.js, repairScheduler.js.  JS numbers on the
paths embedded here are modelled as exact rationals (`ℚ`), except where a
transcendental function forces `ℝ`; 32-bit integer operations are modelled on
`ℕ`/`ℤ` with explicit `% 2 ^ 32`.
-/

/- ===================== rng.js ===================== -/

/-- One update of the xorshift32 state inside `makeRNG` (rng.js lines 7-11):
`s ^= s << 13; s ^= s >>> 17; s ^= s << 5`, each step on 32-bit words. -/
def xorshift32 (s : ℕ) : ℕ :=
  let s1 := s ^^^ ((s <<< 13) % 2 ^ 32)
  let s2 := s1 ^^^ (s1 >>> 17)
  s2 ^^^ ((s2 <<< 5) % 2 ^ 32)

/-- The internal state of the seeded generator after `n` calls of `rand()`.
`Number(seed) >>> 0` normalizes the seed to a 32-bit word, modelled by
`seed % 2 ^ 32`. -/
def randState (seed : ℕ) : ℕ → ℕ
  | 0 => seed % 2 ^ 32
  | n + 1 => xorshift32 (randState seed n)

/-- The value returned by position `n` (0-based) of the seeded `rand()` stream
(rng.js line 10): the state is advanced first, then `(s >>> 0) / 0xffffffff`
is returned; `0xffffffff = 4294967295 = 2 ^ 32 - 1`. -/
def rand (seed : ℕ) (n : ℕ) : ℚ :=
  (randState seed (n + 1) : ℚ) / 4294967295

/-- The draw `u = rand() * 2 - 1` made inside `boxMuller` (rng.js line 21),
reading stream position `n`. -/
def bmU (seed n : ℕ) : ℚ := rand seed n * 2 - 1

/-- The rejection condition of the `do ... while` loop in `boxMuller`
(rng.js line 24): with `r = u*u + v*v`, the loop repeats while
`r === 0 || r >= 1`. -/
def bmReject (u v : ℚ) : Prop := u * u + v * v = 0 ∨ 1 ≤ u * u + v * v

instance (u v : ℚ) : Decidable (bmReject u v) := by unfold bmReject; infer_instance

/-- In the shallow model, the first call of `gaussian()` (no spare cached)
terminates precisely when some iteration draws an accepted pair; iteration `k`
consumes stream positions `2*k` and `2*k+1`. -/
def boxMullerFirstCallTerminates (seed : ℕ) : Prop :=
  ∃ k, ¬ bmReject (bmU seed (2 * k)) (bmU seed (2 * k + 1))

lemma xorshift32_lt (s : ℕ) (h : s < 2 ^ 32) : xorshift32 s < 2 ^ 32 := by
  unfold xorshift32
  have h1 : s ^^^ ((s <<< 13) % 2 ^ 32) < 2 ^ 32 :=
    Nat.xor_lt_two_pow h (Nat.mod_lt _ (by norm_num))
  have h2 : (s ^^^ ((s <<< 13) % 2 ^ 32)) >>> 17 < 2 ^ 32 := by
    rw [Nat.shiftRight_eq_div_pow]
    exact lt_of_le_of_lt (Nat.div_le_self _ _) h1
  have h3 : (s ^^^ ((s <<< 13) % 2 ^ 32)) ^^^ ((s ^^^ ((s <<< 13) % 2 ^ 32)) >>> 17)
      < 2 ^ 32 := Nat.xor_lt_two_pow h1 h2
  exact Nat.xor_lt_two_pow h3 (Nat.mod_lt _ (by norm_num))

lemma randState_lt (seed n : ℕ) : randState seed n < 2 ^ 32 := by
  induction n with
  | zero => exact Nat.mod_lt _ (by norm_num)
  | succ n ih => exact xorshift32_lt _ ih

/-- C2 (amended): every value of the seeded uniform stream is nonnegative and
at most 1 — the stream lies in the closed interval [0, 1], the best bound the
code `(s >>> 0) / 0xffffffff` admits, since the divisor is `2 ^ 32 - 1` while
the state ranges over all 32-bit words. -/
theorem rand_mem_closedUnitInterval (seed n : ℕ) :
    0 ≤ rand seed n ∧ rand seed n ≤ 1 := by
  have hst : randState seed (n + 1) < 2 ^ 32 := randState_lt seed (n + 1)
  constructor
  · exact div_nonneg (by exact_mod_cast Nat.zero_le _) (by norm_num)
  · rw [rand, div_le_one (by norm_num)]
    have : randState seed (n + 1) ≤ 4294967295 := by omega
    exact_mod_cast this

/-- C2 counterexample: for seed 1584200935 the first value of the stream is
exactly 1 (the xorshift32 step maps this seed to state `0xffffffff`), so the
stream is not contained in the half-open interval [0, 1). -/
theorem rand_reaches_one_cex :
    rand 1584200935 0 = 1 ∧ ¬ (0 ≤ rand 1584200935 0 ∧ rand 1584200935 0 < 1) := by
  have h : randState 1584200935 1 = 4294967295 := by decide
  have h1 : rand 1584200935 0 = 1 := by unfold rand; rw [h]; norm_num
  exact ⟨h1, by rw [h1]; norm_num⟩

/-- C10: with seed 0 the seeded generator returns 0 forever (0 is a fixed point
of the xorshift32 update), every Box-Muller draw is `u = v = -1`, so each
iteration of the rejection loop has `r = 2 ≥ 1` and is rejected; hence the
first call of `gaussian()` never terminates in the shallow model, where
termination is exactly the existence of an accepted drawn pair. -/
theorem seedZero_rand_zero_and_gaussian_diverges :
    xorshift32 0 = 0 ∧ (∀ n, rand 0 n = 0) ∧ (∀ n, bmU 0 n = -1) ∧
    (∀ k, bmReject (bmU 0 (2 * k)) (bmU 0 (2 * k + 1))) ∧
    ¬ boxMullerFirstCallTerminates 0 := by
  have hx : xorshift32 0 = 0 := by decide
  have hs : ∀ n, randState 0 n = 0 := by
    intro n
    induction n with
    | zero => decide
    | succ n ih => rw [randState, ih, hx]
  have hr : ∀ n, rand 0 n = 0 := by intro n; unfold rand; rw [hs]; norm_num
  have hu : ∀ n, bmU 0 n = -1 := by intro n; unfold bmU; rw [hr]; norm_num
  have hrej : ∀ k, bmReject (bmU 0 (2 * k)) (bmU 0 (2 * k + 1)) := by
    intro k
    right
    rw [hu, hu]
    norm_num
  refine ⟨hx, hr, hu, hrej, ?_⟩
  rintro ⟨k, hk⟩
  exact hk (hrej k)

/- ===================== simulator.js : rate split ===================== -/

/-- Per-shard rate split in `startSimulator` (simulator.js lines 116-128):
`base = Math.floor(eventsPerSec / concurrency)`,
`remainder = eventsPerSec % concurrency`, and worker `i` (0-based) targets
`base + (i < remainder ? 1 : 0)`. -/
def shardTargets (R K : ℕ) : List ℕ :=
  (List.range K).map fun i => R / K + if i < R % K then 1 else 0

lemma sum_range_const_add_indicator (c m : ℕ) (K : ℕ) :
    ((List.range K).map fun i => c + if i < m then 1 else 0).sum
      = K * c + min m K := by
  induction K with
  | zero => simp
  | succ K ih =>
    rw [List.range_succ, List.map_append, List.sum_append, ih]
    by_cases hK : K < m
    · rw [List.map_cons, List.map_nil, List.sum_cons, List.sum_nil, if_pos hK,
        Nat.succ_mul]
      omega
    · rw [List.map_cons, List.map_nil, List.sum_cons, List.sum_nil, if_neg hK,
        Nat.succ_mul]
      omega

/-- C5: for 1 ≤ K ≤ R, the rate split assigns ⌊R/K⌋ to every shard plus one
extra unit to exactly the first R mod K shards, and the shard targets sum to
R. -/
theorem shardTargets_spec (R K : ℕ) (hK : 1 ≤ K) (hKR : K ≤ R) :
    (shardTargets R K).length = K ∧
    (∀ i, i < K → (shardTargets R K).getD i 0
        = R / K + if i < R % K then 1 else 0) ∧
    (shardTargets R K).sum = R := by
  refine ⟨by simp [shardTargets], ?_, ?_⟩
  · intro i hi
    simp [shardTargets, List.getD_eq_getElem?_getD, List.getElem?_range, hi]
  · rw [shardTargets, sum_range_const_add_indicator]
    have hmod : R % K < K := Nat.mod_lt _ (by omega)
    rw [min_eq_left hmod.le]
    exact Nat.div_add_mod R K

/-- C5 witness: R = 10, K = 3 yields shard targets [4, 3, 3], in shard order,
summing to 10. -/
theorem shardTargets_spec_witness :
    (shardTargets 10 3).sum = 10 ∧ shardTargets 10 3 = [4, 3, 3] :=
  ⟨(shardTargets_spec 10 3 (by decide) (by decide)).2.2, by decide⟩

/- ===================== simulator.js : moving average ===================== -/

/-- `movingAverage` (simulator.js lines 206-211).  For `len ≥ 1`,
`history.slice(-len)` keeps the last `len` entries, i.e. drops
`length - len` entries from the front; `Math.round` on a nonnegative value is
`round` (floor of x + 1/2). -/
def movingAverage (history : List ℕ) (windowSec : ℕ) : ℤ :=
  if history.isEmpty then 0
  else
    let len := min history.length windowSec
    let sum : ℕ := (history.drop (history.length - len)).sum
    round ((sum : ℚ) / (len : ℚ))

/-- C7: the moving average of an empty history is 0; of a one-entry history
`[v]` it is `v`; and in general, for every window `W ≥ 1`, it is the rounded
mean of the last `min (length history) W` entries. -/
theorem movingAverage_spec :
    (∀ W, movingAverage [] W = 0) ∧
    (∀ (v W : ℕ), 1 ≤ W → movingAverage [v] W = v) ∧
    (∀ (history : List ℕ) (W : ℕ), 1 ≤ W →
      movingAverage history W =
        round (((history.reverse.take (min history.length W)).sum : ℚ)
          / (min history.length W : ℚ))) := by
  refine ⟨by intro W; simp [movingAverage], ?_, ?_⟩
  · intro v W hW
    have hmin : min 1 W = 1 := by omega
    simp [movingAverage, hmin]
  · intro history W hW
    match history with
    | [] => simp [movingAverage]
    | a :: t =>
      have hrt : (a :: t).rtake (min (a :: t).length W)
          = ((a :: t).reverse.take (min (a :: t).length W)).reverse :=
        List.rtake_eq_reverse_take_reverse _ _
      have hsum : ((a :: t).drop ((a :: t).length - min (a :: t).length W)).sum
          = ((a :: t).reverse.take (min (a :: t).length W)).sum := by
        have h2 := congrArg List.sum hrt
        rwa [List.rtake, List.sum_reverse] at h2
      unfold movingAverage
      rw [if_neg (by simp)]
      dsimp only
      rw [hsum, Nat.cast_min]

/-- C7 witness: one-entry history gives its value; empty history gives 0. -/
theorem movingAverage_spec_witness :
    movingAverage [3] 10 = 3 ∧ movingAverage [] 10 = 0 :=
  ⟨by exact_mod_cast movingAverage_spec.2.1 3 10 (by decide),
   movingAverage_spec.1 10⟩

/- ===================== simulator.js : worker batches ===================== -/

/-- Number of insert calls per worker tick (simulator.js line 222):
`batches = Math.max(1, Math.ceil(eps / batchSize))`; on naturals with `B ≥ 1`,
`Math.ceil(eps / B)` is `(eps + B - 1) / B`. -/
def tickBatches (eps B : ℕ) : ℕ := max 1 ((eps + B - 1) / B)

/-- Size of batch `b` within a tick (simulator.js line 226):
`size = Math.min(batchSize, eps - b * batchSize) || batchSize`; the `|| B`
replaces a zero (falsy) size by `B`. -/
def tickBatchSize (eps B b : ℕ) : ℕ :=
  let m := min B (eps - b * B)
  if m = 0 then B else m

/-- The batch sizes issued by one worker tick, in order (loop at simulator.js
lines 225-255). -/
def tickBatchSizes (eps B : ℕ) : List ℕ :=
  (List.range (tickBatches eps B)).map (tickBatchSize eps B)

lemma tickBatches_bounds (eps B : ℕ) (heps : 1 ≤ eps) (hB : 1 ≤ B) :
    1 ≤ (eps + B - 1) / B ∧ eps ≤ B * ((eps + B - 1) / B) ∧
    B * ((eps + B - 1) / B) < eps + B := by
  have hBpos : 0 < B := hB
  have hdm := Nat.div_add_mod (eps + B - 1) B
  have hm : (eps + B - 1) % B < B := Nat.mod_lt _ hBpos
  have h1 : 1 ≤ (eps + B - 1) / B := by
    rw [Nat.one_le_div_iff hBpos]
    omega
  exact ⟨h1, by omega, by omega⟩

lemma antitone_le_head (f : ℕ → ℕ) (hf : ∀ i, f (i + 1) ≤ f i) :
    ∀ m, f m ≤ f 0
  | 0 => le_refl _
  | m + 1 => le_trans (hf m) (antitone_le_head f hf m)

lemma sum_range_sub_telescope (f : ℕ → ℕ) (hf : ∀ i, f (i + 1) ≤ f i) :
    ∀ n, ((List.range n).map fun b => f b - f (b + 1)).sum = f 0 - f n := by
  intro n
  induction n with
  | zero => simp
  | succ n ih =>
    rw [List.range_succ, List.map_append, List.sum_append, ih,
      List.map_cons, List.map_nil, List.sum_cons, List.sum_nil]
    have h1 : f (n + 1) ≤ f n := hf n
    have h2 : f n ≤ f 0 := antitone_le_head f hf n
    omega

/-- C6: for per-shard rate `eps ≥ 1` and batch cap `B ≥ 1`, a worker tick
issues `max 1 ⌈eps / B⌉` insert calls, every batch before the last has size
exactly `B`, no batch exceeds `B`, and the batch sizes sum to `eps`. -/
theorem tickBatchSizes_spec (eps B : ℕ) (heps : 1 ≤ eps) (hB : 1 ≤ B) :
    ((tickBatchSizes eps B).length : ℤ) = max 1 ⌈(eps : ℚ) / (B : ℚ)⌉ ∧
    (∀ b, b + 1 < (tickBatchSizes eps B).length → tickBatchSize eps B b = B) ∧
    (∀ b, tickBatchSize eps B b ≤ B) ∧
    (tickBatchSizes eps B).sum = eps := by
  obtain ⟨h1, hle, hlt⟩ := tickBatches_bounds eps B heps hB
  set n := (eps + B - 1) / B with hn
  have hcomm : B * n = n * B := Nat.mul_comm _ _
  have hnB : eps ≤ n * B := by omega
  have hnB2 : n * B < eps + B := by omega
  have hlen : (tickBatchSizes eps B).length = n := by
    simp only [tickBatchSizes, List.length_map, List.length_range, tickBatches]
    exact max_eq_right h1
  have key : ∀ b, b < n → b * B + B + 1 ≤ eps + B := by
    intro b hb
    have h2 : b * B + B ≤ n * B := by
      calc b * B + B = (b + 1) * B := by ring
        _ ≤ n * B := Nat.mul_le_mul_right _ hb
    omega
  have hBQ : (0 : ℚ) < (B : ℚ) := by exact_mod_cast (by omega : 0 < B)
  have hceil : ⌈(eps : ℚ) / (B : ℚ)⌉ = (n : ℤ) := by
    rw [Int.ceil_eq_iff]
    constructor
    · rw [lt_div_iff hBQ]
      have hc : ((n * B : ℕ) : ℚ) < ((eps + B : ℕ) : ℚ) := by exact_mod_cast hnB2
      push_cast at hc ⊢
      linarith
    · rw [div_le_iff hBQ]
      exact_mod_cast hnB
  refine ⟨?_, ?_, ?_, ?_⟩
  · rw [hlen, hceil]
    exact (max_eq_right (by exact_mod_cast h1)).symm
  · intro b hb
    rw [hlen] at hb
    have hfull : B ≤ eps - b * B := by
      have h2 : b * B + B + B ≤ n * B := by
        calc b * B + B + B = (b + 2) * B := by ring
          _ ≤ n * B := Nat.mul_le_mul_right _ (by omega)
      omega
    simp only [tickBatchSize, min_eq_left hfull]
    split <;> omega
  · intro b
    simp only [tickBatchSize]
    split
    · exact le_refl _
    · exact min_le_left _ _
  · have hmap : (tickBatchSizes eps B)
        = (List.range n).map (fun b => (eps - b * B) - (eps - (b + 1) * B)) := by
      rw [tickBatchSizes, tickBatches, max_eq_right h1]
      refine List.map_congr_left ?_
      intro b hb
      rw [List.mem_range] at hb
      have hk := key b hb
      have hmul : (b + 1) * B = b * B + B := by ring
      have hne : ¬ (min B (eps - b * B) = 0) := by omega
      simp only [tickBatchSize, if_neg hne]
      omega
    rw [hmap, sum_range_sub_telescope (fun b => eps - b * B)
      (by
        intro i
        show eps - (i + 1) * B ≤ eps - i * B
        have h3 : (i + 1) * B = i * B + B := by ring
        omega)]
    have hz : (0 : ℕ) * B = 0 := by ring
    omega

/-- C6 witness: eps = 10, B = 3 gives batches [3, 3, 3, 1] summing to 10. -/
theorem tickBatchSizes_spec_witness :
    (tickBatchSizes 10 3).sum = 10 ∧ tickBatchSizes 10 3 = [3, 3, 3, 1] :=
  ⟨(tickBatchSizes_spec 10 3 (by decide) (by decide)).2.2.2, by decide⟩

/- ============== repairScheduler.js : category filter ============== -/

/-- `INFRA_TYPES` (repairScheduler.js lines 66-70). -/
def INFRA_TYPES : List String :=
  ["construction", "smartcell", "smallcell", "backhaul",
   "datacenter", "cloud-network", "cloud_network", "edge",
   "tower", "fiber-plant", "fiber", "core", "transport"]

/-- The alternatives of the regular expression
`/cell|tower|fiber|backhaul|datacenter|edge|transport|core/`
(repairScheduler.js line 112); the regex matches iff some alternative occurs
as a substring of the tested string. -/
def infraPatternTokens : List String :=
  ["cell", "tower", "fiber", "backhaul", "datacenter", "edge", "transport",
   "core"]

/-- Contiguous-substring test on character lists (used to model `regex.test`
for an alternation of literal tokens). -/
def hasInfix (tok : List Char) : List Char → Bool
  | [] => tok.isEmpty
  | c :: rest => tok.isPrefixOf (c :: rest) || hasInfix tok rest

/-- `regex.test t` for the pattern above, as substring containment. -/
def infraPatternMatches (t : String) : Bool :=
  infraPatternTokens.any fun tok => hasInfix tok.data t.data

/-- `toLowerCase()` on the code points of a string (ASCII on all inputs the
scheduler sees). -/
def strToLower (s : String) : String := ⟨s.data.map Char.toLower⟩

/-- `chooseCategoryFrom` (repairScheduler.js lines 109-114); the argument is
the optional `issue.type` string.  A missing type skips both guards via the
falsy check `t && ...`; an empty string likewise fails both guards; either way
the function falls through to the final `return 'infrastructure'`. -/
def chooseCategoryFrom (issueType : Option String) : String :=
  match issueType with
  | some ty =>
    let t := strToLower ty
    if INFRA_TYPES.contains t then "infrastructure"
    else if infraPatternMatches t then "infrastructure"
    else "infrastructure"
  | none => "infrastructure"

/-- An incident document as projected by `fetchRecentIncidents`
(repairScheduler.js lines 116-128): the `_id` and the embedded issue type. -/
structure IncidentDoc where
  id : String
  issueType : Option String
deriving DecidableEq

/-- The candidate-pool restriction in `tick` (repairScheduler.js line 199):
`pool.filter((d) => chooseCategoryFrom(d.serviceIssue) === 'infrastructure')`. -/
def infraPool (pool : List IncidentDoc) : List IncidentDoc :=
  pool.filter fun d => chooseCategoryFrom d.issueType == "infrastructure"

/-- C1 counterexample: an incident whose issue type is "broadband" (or "voip")
satisfies neither the exact tag set nor the substring heuristic, yet it is
kept in the candidate pool, because `chooseCategoryFrom` also returns the
infrastructure tag from its final fallback branch. -/
theorem chooseCategoryFrom_keeps_broadband_cex :
    INFRA_TYPES.contains "broadband" = false ∧
    infraPatternMatches "broadband" = false ∧
    INFRA_TYPES.contains "voip" = false ∧
    infraPatternMatches "voip" = false ∧
    infraPool [⟨"i1", some "broadband"⟩, ⟨"i2", some "voip"⟩]
      = [⟨"i1", some "broadband"⟩, ⟨"i2", some "voip"⟩] := by
  refine ⟨by decide, by decide, by decide, by decide, by decide⟩

/-- C1 (amended): the issue-category mapping returns the infrastructure tag
for every issue type (the exact-set and substring guards are redundant with
the final fallback `return 'infrastructure'`), so the scheduler keeps every
fetched incident as a repair candidate; no incident is excluded. -/
theorem chooseCategoryFrom_const_infrastructure :
    (∀ ty : Option String, chooseCategoryFrom ty = "infrastructure") ∧
    (∀ pool : List IncidentDoc, infraPool pool = pool) := by
  have h : ∀ ty, chooseCategoryFrom ty = "infrastructure" := by
    intro ty
    cases ty with
    | none => rfl
    | some t => simp [chooseCategoryFrom]
  refine ⟨h, ?_⟩
  intro pool
  rw [infraPool]
  apply List.filter_eq_self.mpr
  intro a _
  rw [h a.issueType]
  rfl

/- ============== repairScheduler.js : fix timers ============== -/

/-- The scheduler state touched by `scheduleFixTimer` (repairScheduler.js
lines 177-190): the in-flight table `timersByIncident` (a Map keyed by
`String(incidentId)` in insertion order, each value recording `(t, dueAt)`;
the opaque timer handle `t` is abstracted away, keeping `dueAt` in epoch
milliseconds) and the `scheduled` counter. -/
structure SchedulerTimers where
  timersByIncident : List (String × ℤ)
  scheduled : ℕ
deriving DecidableEq

/-- `scheduleFixTimer` (repairScheduler.js lines 177-190): skip and return
false when the incident already has an in-flight timer, otherwise record
`(incidentId, dueAt = now + delayMs)`, increment `scheduled`, return true. -/
def scheduleFixTimer (st : SchedulerTimers) (incidentId : String)
    (now delayMs : ℤ) : SchedulerTimers × Bool :=
  if (st.timersByIncident.lookup incidentId).isSome then (st, false)
  else
    ({ timersByIncident := st.timersByIncident ++ [(incidentId, now + delayMs)],
       scheduled := st.scheduled + 1 }, true)

lemma lookup_none_keys {β : Type} (k : String) :
    ∀ l : List (String × β), List.lookup k l = none → k ∉ l.map Prod.fst := by
  intro l
  induction l with
  | nil => intro _; simp
  | cons p t ih =>
    intro h
    obtain ⟨a, b⟩ := p
    by_cases hk : k = a
    · subst hk
      simp [List.lookup] at h
    · have hbeq : (k == a) = false := beq_false_of_ne hk
      simp only [List.lookup, hbeq] at h
      simpa [hk] using ih h

/-- C8: the in-flight table keeps at most one entry per incident id:
scheduling an incident that already has an entry returns false and leaves the
state (table, counter, pending entries) unchanged; scheduling an absent
incident returns true, appends exactly the entry `(incidentId, now + delayMs)`
and increments `scheduled` by one; and key uniqueness of the table is
preserved. -/
theorem scheduleFixTimer_spec (st : SchedulerTimers) (k : String)
    (now delayMs : ℤ) :
    ((st.timersByIncident.lookup k).isSome →
      scheduleFixTimer st k now delayMs = (st, false)) ∧
    (st.timersByIncident.lookup k = none →
      (scheduleFixTimer st k now delayMs).2 = true ∧
      (scheduleFixTimer st k now delayMs).1.timersByIncident
        = st.timersByIncident ++ [(k, now + delayMs)] ∧
      (scheduleFixTimer st k now delayMs).1.scheduled = st.scheduled + 1) ∧
    ((st.timersByIncident.map Prod.fst).Nodup →
      ((scheduleFixTimer st k now delayMs).1.timersByIncident.map
        Prod.fst).Nodup) := by
  refine ⟨?_, ?_, ?_⟩
  · intro h
    simp [scheduleFixTimer, h]
  · intro h
    have h2 : ¬ (st.timersByIncident.lookup k).isSome := by simp [h]
    simp [scheduleFixTimer, h2]
  · intro hnd
    by_cases h : (st.timersByIncident.lookup k).isSome
    · simpa [scheduleFixTimer, h] using hnd
    · have hnone : st.timersByIncident.lookup k = none := by
        cases hx : st.timersByIncident.lookup k
        · rfl
        · rw [hx] at h
          simp at h
      have hmem := lookup_none_keys k st.timersByIncident hnone
      simp only [scheduleFixTimer, h]
      rw [if_neg (by simp)]
      simp only [List.map_append, List.map_cons, List.map_nil]
      rw [List.nodup_append]
      refine ⟨hnd, List.nodup_singleton _, ?_⟩
      intro a ha hb
      simp at hb
      subst hb
      exact hmem ha

/-- C8 witness: re-scheduling incident "a" (already in flight) is a rejected
no-op; scheduling the fresh incident "b" appends its entry with
`dueAt = 100 + 7`. -/
theorem scheduleFixTimer_spec_witness :
    scheduleFixTimer ⟨[("a", 5)], 3⟩ "a" 100 7 = (⟨[("a", 5)], 3⟩, false) ∧
    (scheduleFixTimer ⟨[("a", 5)], 3⟩ "b" 100 7).1.timersByIncident
      = [("a", 5), ("b", 107)] := by
  have h1 := (scheduleFixTimer_spec ⟨[("a", 5)], 3⟩ "a" 100 7).1 (by decide)
  have h2 := ((scheduleFixTimer_spec ⟨[("a", 5)], 3⟩ "b" 100 7).2.1
    (by decide)).2.1
  refine ⟨h1, ?_⟩
  rw [h2]
  decide

/- ===================== cityModel.js ===================== -/

/-- A JavaScript number as parsed from the catalog JSON: a finite value
(modelled exactly as a rational) or one of the non-finite values. -/
inductive JSNum where
  | num (q : ℚ)
  | nan
  | inf
  | negInf
deriving DecidableEq

/-- A raw catalog entry before loading; `weight` and `sigmaKm` may be absent
(the code applies `c.weight ?? 1` and `c.sigmaKm ?? 5`); present numeric
weights are modelled as rationals. -/
structure RawCity where
  name : String
  lat : JSNum
  lng : JSNum
  weight : Option ℚ
  sigmaKm : Option ℚ
deriving DecidableEq

/-- A loaded catalog entry (cityModel.js lines 5-12). -/
structure City where
  name : String
  lat : JSNum
  lng : JSNum
  weight : ℚ
  sigmaKm : ℚ
deriving DecidableEq

/-- The loaded model (cityModel.js line 15). -/
structure CityModel where
  cities : List City
  cumWeights : List ℚ
  totalWeight : ℚ
deriving DecidableEq

/-- The running prefix sums produced by
`let sum = 0; const cum = cities.map((c) => (sum += c.weight))`
(cityModel.js lines 13-14). -/
def prefixSums (l : List ℚ) : List ℚ :=
  (l.scanl (· + ·) 0).tail

/-- `loadCityModel` (cityModel.js lines 3-16): maps every parsed entry into
the model, defaulting absent weight to 1 and absent sigmaKm to 5, and
precomputes the cumulative weights and their total; no entry is filtered. -/
def loadCityModel (raw : List RawCity) : CityModel :=
  let cities := raw.map fun c =>
    { name := c.name, lat := c.lat, lng := c.lng,
      weight := c.weight.getD 1, sigmaKm := c.sigmaKm.getD 5 : City }
  { cities := cities
    cumWeights := prefixSums (cities.map City.weight)
    totalWeight := (cities.map City.weight).sum }

/- ===================== simulator.js : start ===================== -/

/-- Guard limits from config.js (defaults, environment unset). -/
def MAX_EPS : ℚ := 1000000

def MAX_BATCH_SIZE : ℚ := 50000

def MAX_CONCURRENCY : ℚ := 128

/-- The body of a `/start` request as consumed by `startSimulator`
(simulator.js lines 57-63 and 184-204); absent fields are `none`. -/
structure StartInput where
  eventsPerSec : Option ℚ
  batchSize : Option ℚ
  spread : Option ℚ
  seed : Option ℚ
  concurrency : Option ℚ
  note : Option String
  repairsEnabled : Bool
deriving DecidableEq

/-- The effective run parameters (the `SIM.params` holder,
simulator.js lines 12-20). -/
structure SimParams where
  eventsPerSec : ℚ
  batchSize : ℚ
  spread : ℚ
  seed : Option ℚ
  concurrency : ℚ
  note : Option String
  repairsEnabled : Bool
deriving DecidableEq

/-- `validateParams` (simulator.js lines 184-204): apply defaults, then range
checks; a failed check throws a status-400 error with the given message.
`note` and `repairsEnabled` are filled in by `startSimulator` afterwards
(lines 62-63). -/
def validateParams (body : StartInput) : Except String SimParams :=
  let eventsPerSec := body.eventsPerSec.getD 8000
  let batchSize := body.batchSize.getD 1000
  let spread := body.spread.getD 2
  let seed := body.seed
  let concurrency := body.concurrency.getD 1
  if ¬ (1 ≤ eventsPerSec ∧ eventsPerSec ≤ MAX_EPS) then
    .error "eventsPerSec must be 1..MAX_EPS"
  else if ¬ (1 ≤ batchSize ∧ batchSize ≤ MAX_BATCH_SIZE) then
    .error "batchSize must be 1..MAX_BATCH_SIZE"
  else if ¬ ((1 / 5 : ℚ) ≤ spread ∧ spread ≤ 5) then
    .error "spread must be 0.2..5.0"
  else if ¬ (1 ≤ concurrency ∧ concurrency ≤ MAX_CONCURRENCY) then
    .error "concurrency must be 1..MAX_CONCURRENCY"
  else if eventsPerSec < concurrency then
    .error "eventsPerSec must be >= concurrency"
  else
    .ok { eventsPerSec := eventsPerSec, batchSize := batchSize,
          spread := spread, seed := seed, concurrency := concurrency,
          note := none, repairsEnabled := false }

/-- The slice of `getStatus()` (simulator.js lines 32-48) relevant to the
start claims. -/
structure Status where
  running : Bool
  params : SimParams
  cityModelSize : ℕ
  simRunId : Option String
deriving DecidableEq

/-- The in-memory simulator state (the `SIM` holder plus the run-state
module) as far as `startSimulator` touches it; `descriptors` records the run
descriptors persisted by `insertSimRun`. -/
structure SimState where
  running : Bool
  params : SimParams
  model : CityModel
  history : List ℕ
  simRunId : Option String
  descriptors : List String
deriving DecidableEq

def getStatus (st : SimState) : Status :=
  { running := st.running, params := st.params,
    cityModelSize := st.model.cities.length, simRunId := st.simRunId }

/-- `startSimulator` (simulator.js lines 57-136), with the store abstracted
as always reachable (`insertSimRun` appends a run descriptor) and the fresh
run id `buildSimRunId(seed)` supplied as the argument `newRunId`.  With a run
already active, it returns the current status at once (line 58), for every
input; otherwise it validates, persists a descriptor, records the run state
and starts the workers.  The loaded catalog is never examined. -/
def startSimulator (st : SimState) (input : StartInput) (newRunId : String) :
    SimState × Except String Status :=
  if st.running then (st, .ok (getStatus st))
  else
    match validateParams input with
    | .error e => (st, .error e)
    | .ok p0 =>
      let p : SimParams :=
        { p0 with note := input.note, repairsEnabled := input.repairsEnabled }
      let st2 : SimState :=
        { running := true, params := p, model := st.model,
          history := [], simRunId := some newRunId,
          descriptors := st.descriptors ++ [newRunId] }
      (st2, .ok (getStatus st2))

lemma validateParams_defaults :
    validateParams ⟨none, none, none, none, none, none, false⟩
      = .ok ⟨8000, 1000, 2, none, 1, none, false⟩ := by
  unfold validateParams
  norm_num [MAX_EPS, MAX_BATCH_SIZE, MAX_CONCURRENCY]

/-- C3 counterexample: a catalog entry with non-finite latitude and weight -5
is present in the loaded model (load filters nothing), and starting from an
idle state whose loaded catalog has zero entries succeeds and establishes a
run instead of failing with a resource error. -/
theorem loadCityModel_no_exclusion_cex :
    (loadCityModel [⟨"X", JSNum.nan, JSNum.num 0, some (-5), none⟩]).cities
      = [⟨"X", JSNum.nan, JSNum.num 0, -5, 5⟩] ∧
    ((loadCityModel []).cities.length = 0 ∧
      (startSimulator
          ⟨false, ⟨8000, 1000, 2, none, 1, none, false⟩, loadCityModel [],
            [], none, []⟩
          ⟨none, none, none, none, none, none, false⟩ "run-1").1.running
        = true ∧
      ((startSimulator
          ⟨false, ⟨8000, 1000, 2, none, 1, none, false⟩, loadCityModel [],
            [], none, []⟩
          ⟨none, none, none, none, none, none, false⟩ "run-1").2).isOk
        = true) := by
  refine ⟨by decide, by decide, ?_, ?_⟩ <;>
    simp [startSimulator, validateParams_defaults, Except.isOk, Except.toBool]

/-- C3 (amended): catalog loading performs no validation — every raw entry
appears in the loaded model, in order, with absent weight defaulted to 1 and
absent sigmaKm to 5, including entries with non-finite coordinates or
non-positive weight; and start does not examine the catalog: from any idle
state, any input that passes parameter validation establishes a run even when
the loaded catalog has zero entries. -/
theorem loadCityModel_start_no_catalog_check
    (raw : List RawCity) (st : SimState) (input : StartInput)
    (newRunId : String) (p : SimParams)
    (hrun : st.running = false) (hv : validateParams input = .ok p) :
    (loadCityModel raw).cities
      = raw.map (fun c => ⟨c.name, c.lat, c.lng, c.weight.getD 1,
          c.sigmaKm.getD 5⟩) ∧
    (startSimulator st input newRunId).1.running = true ∧
    (startSimulator st input newRunId).2
      = .ok (getStatus (startSimulator st input newRunId).1) := by
  refine ⟨rfl, ?_, ?_⟩ <;> simp [startSimulator, hrun, hv]

/-- C3 witness: instantiated at the junk one-entry catalog, the idle
empty-catalog state and the all-defaults input. -/
theorem loadCityModel_start_no_catalog_check_witness :
    (loadCityModel [⟨"X", JSNum.nan, JSNum.num 0, some (-5), none⟩]).cities
      = [⟨"X", JSNum.nan, JSNum.num 0, -5, 5⟩] ∧
    (startSimulator
        ⟨false, ⟨8000, 1000, 2, none, 1, none, false⟩, loadCityModel [],
          [], none, []⟩
        ⟨none, none, none, none, none, none, false⟩ "run-1").1.running
      = true := by
  have h := loadCityModel_start_no_catalog_check
    [⟨"X", JSNum.nan, JSNum.num 0, some (-5), none⟩]
    ⟨false, ⟨8000, 1000, 2, none, 1, none, false⟩, loadCityModel [], [],
      none, []⟩
    ⟨none, none, none, none, none, none, false⟩ "run-1"
    ⟨8000, 1000, 2, none, 1, none, false⟩ rfl validateParams_defaults
  exact ⟨h.1, h.2.1⟩

/-- C4 counterexample: a start request carrying different run parameters
(seed 2) while run "R1" (seed 1) is active is not rejected: the call returns
ok with the unchanged status and leaves the state untouched. -/
theorem start_differentRun_not_rejected_cex :
    startSimulator
        ⟨true, ⟨1000, 500, 2, some 1, 1, none, false⟩, loadCityModel [],
          [5], some "R1", ["R1"]⟩
        ⟨some 1000, some 500, some 2, some 2, some 1, none, false⟩ "R2"
      = (⟨true, ⟨1000, 500, 2, some 1, 1, none, false⟩, loadCityModel [],
          [5], some "R1", ["R1"]⟩,
        .ok (getStatus
          ⟨true, ⟨1000, 500, 2, some 1, 1, none, false⟩, loadCityModel [],
            [5], some "R1", ["R1"]⟩)) := rfl

/-- C4 (amended): while a run is active, every start request — same run or
different — is an idempotent no-op: the state (descriptor list, RNG, shards,
params) is unchanged and the returned status carries the unchanged runId;
different-run requests are not rejected but equally ignored. -/
theorem start_while_running_noop (st : SimState) (input : StartInput)
    (newRunId : String) (h : st.running = true) :
    startSimulator st input newRunId = (st, .ok (getStatus st)) ∧
    (getStatus st).simRunId = st.simRunId := by
  simp [startSimulator, h, getStatus]

/-- C4 witness: the no-op applied to a concrete active run. -/
theorem start_while_running_noop_witness :
    startSimulator
        ⟨true, ⟨1000, 500, 2, some 1, 1, none, false⟩, loadCityModel [],
          [5], some "R1", ["R1"]⟩
        ⟨none, none, none, none, none, none, true⟩ "R9"
      = (⟨true, ⟨1000, 500, 2, some 1, 1, none, false⟩, loadCityModel [],
          [5], some "R1", ["R1"]⟩,
        .ok (getStatus
          ⟨true, ⟨1000, 500, 2, some 1, 1, none, false⟩, loadCityModel [],
            [5], some "R1", ["R1"]⟩)) :=
  (start_while_running_noop _ _ _ rfl).1

/- ============== repairScheduler.js : delay model ============== -/

/-- `Number.EPSILON` = 2⁻⁵². -/
def jsEpsilon : ℚ := 1 / 2 ^ 52

/-- Truncation toward zero (`Math.trunc`, the first step of `x | 0`). -/
def jsTrunc (q : ℚ) : ℤ := if 0 ≤ q then ⌊q⌋ else ⌈q⌉

/-- `x | 0` — ToInt32: truncate toward zero, then wrap into [-2³¹, 2³¹). -/
def toInt32 (q : ℚ) : ℤ := (jsTrunc q + 2 ^ 31) % 2 ^ 32 - 2 ^ 31

/-- The σ computed by `sampleLogNormalSeconds` (repairScheduler.js line 145):
`(Math.log(p95) - Math.log(m)) / 1.64485`, with `mu = Math.log(m)`. -/
noncomputable def sigmaOf (m p95 : ℤ) : ℝ :=
  (Real.log (p95 : ℝ) - Real.log (m : ℝ)) / 1.64485

/-- The tail clamp on z (repairScheduler.js lines 149-152, `Z_MAX = 3.5`). -/
noncomputable def clampZ (z : ℝ) : ℝ :=
  if z > 3.5 then 3.5 else if z < -3.5 then -3.5 else z

/-- `sampleLogNormalSeconds` (repairScheduler.js lines 141-156), parameterized
by the two uniform draws `u1, u2` the code takes from the scheduler RNG:
`m = max(1, medianSec | 0)`, `p95 = max(m + 1, p95Sec | 0)`,
`mu = ln m`, `sigma = (ln p95 - mu) / 1.64485`,
`z = clamp(sqrt(-2 ln(max(u1, EPS))) * cos(2 pi * max(u2, EPS)))`,
result `max(1, round(exp(mu + sigma * z)))`. -/
noncomputable def sampleLogNormalSeconds (medianSec p95Sec : ℚ) (u1 u2 : ℝ) :
    ℤ :=
  let m : ℤ := max 1 (toInt32 medianSec)
  let p95 : ℤ := max (m + 1) (toInt32 p95Sec)
  let mu : ℝ := Real.log (m : ℝ)
  let sigma : ℝ := sigmaOf m p95
  let u1c : ℝ := max u1 ((jsEpsilon : ℚ) : ℝ)
  let u2c : ℝ := max u2 ((jsEpsilon : ℚ) : ℝ)
  let z : ℝ :=
    clampZ (Real.sqrt (-2 * Real.log u1c) * Real.cos (2 * Real.pi * u2c))
  max 1 (round (Real.exp (mu + sigma * z)))

/-- The sampler as worded by the specification for C9: `mu = ln(medianSec)`,
`sigma = (ln(p95Sec) - mu) / 1.6449`, result
`max(1, round(exp(mu + sigma * Z)))` for a tail-clamped standard normal `Z`.
Stated only to compare the specification text against the code. -/
noncomputable def claimedLogNormalSeconds (medianSec p95Sec : ℚ) (z : ℝ) :
    ℤ :=
  let mu : ℝ := Real.log ((medianSec : ℚ) : ℝ)
  let sigma : ℝ := (Real.log ((p95Sec : ℚ) : ℝ) - mu) / 1.6449
  max 1 (round (Real.exp (mu + sigma * z)))

lemma clampZ_abs_le (z : ℝ) : |clampZ z| ≤ 3.5 := by
  unfold clampZ
  split
  · rw [abs_of_pos (by norm_num)]
  · split
    · rw [abs_of_neg (by norm_num)]
      norm_num
    · rw [abs_le]
      constructor <;> linarith [le_of_not_lt (by assumption : ¬ z < -3.5),
        le_of_not_lt (by assumption : ¬ z > 3.5)]

lemma jsEpsilon_cast_le_one : ((jsEpsilon : ℚ) : ℝ) ≤ 1 := by
  rw [jsEpsilon]
  norm_num

lemma zDraw_one_one :
    clampZ (Real.sqrt (-2 * Real.log (max 1 ((jsEpsilon : ℚ) : ℝ)))
      * Real.cos (2 * Real.pi * max 1 ((jsEpsilon : ℚ) : ℝ))) = 0 := by
  have h1 : max (1 : ℝ) ((jsEpsilon : ℚ) : ℝ) = 1 :=
    max_eq_left jsEpsilon_cast_le_one
  rw [h1, Real.log_one]
  norm_num [clampZ]

/-- C9 counterexample: for `medianSec = 5/2`, `p95Sec = 4` and uniform draws
`u1 = u2 = 1` (so the drawn z is 0), the code clamps the median to
`m = max(1, trunc(5/2)) = 2` and returns 2, while the formula claimed by the
specification (`mu = ln(median)` directly, no truncation) returns
`round(exp(ln 5/2)) = 3`; moreover the σ divisor used by the code is 1.64485,
not 1.6449, so σ itself differs whenever `ln p95 ≠ ln m` (shown at
`m = 1, p95 = 3`). -/
theorem sampleLogNormalSeconds_cex :
    sampleLogNormalSeconds (5 / 2) 4 1 1 = 2 ∧
    claimedLogNormalSeconds (5 / 2) 4 0 = 3 ∧
    sigmaOf 1 3 ≠ (Real.log 3 - Real.log 1) / 1.6449 := by
  refine ⟨?_, ?_, ?_⟩
  · have hm : toInt32 (5 / 2) = 2 := by
      rw [toInt32, jsTrunc, if_pos (by norm_num)]
      norm_num
    have hp : toInt32 4 = 4 := by
      rw [toInt32, jsTrunc, if_pos (by norm_num)]
      norm_num
    simp only [sampleLogNormalSeconds, hm, hp, zDraw_one_one, sigmaOf,
      mul_zero, add_zero]
    norm_num
    rw [Real.exp_log (by norm_num)]
    norm_num [round_eq]
  · simp only [claimedLogNormalSeconds, mul_zero, add_zero]
    rw [Real.exp_log (by push_cast; norm_num)]
    push_cast
    norm_num [round_eq]
  · intro heq
    rw [sigmaOf] at heq
    push_cast at heq
    rw [Real.log_one, sub_zero] at heq
    rw [div_eq_div_iff (by norm_num) (by norm_num)] at heq
    have hlog : Real.log 3 ≠ 0 := ne_of_gt (Real.log_pos (by norm_num))
    have h2 := mul_left_cancel₀ hlog heq
    norm_num at h2

/-- C9 (amended): for an integer median `m ≥ 1` and integer `p95 ≥ m + 1`
below 2³¹ (so the int32 coercions `| 0` are the identity), the sampler
computes `mu = ln m` and `sigma = (ln p95 - mu) / 1.64485` — divisor 1.64485,
the code constant, rather than 1.6449 — and returns
`max(1, round(exp(mu + sigma * Z)))` for a tail-clamped `|Z| ≤ 3.5`; its
return value is always an integer ≥ 1. -/
theorem sampleLogNormalSeconds_amended (m p95 : ℤ) (u1 u2 : ℝ)
    (hm : 1 ≤ m) (hp : m + 1 ≤ p95) (hp31 : p95 < 2 ^ 31) :
    (∃ z : ℝ, |z| ≤ 3.5 ∧
      sampleLogNormalSeconds (m : ℚ) (p95 : ℚ) u1 u2
        = max 1 (round (Real.exp (Real.log (m : ℝ)
            + (Real.log (p95 : ℝ) - Real.log (m : ℝ)) / 1.64485 * z)))) ∧
    1 ≤ sampleLogNormalSeconds (m : ℚ) (p95 : ℚ) u1 u2 := by
  have htm : toInt32 (m : ℚ) = m := by
    rw [toInt32, jsTrunc, if_pos (by exact_mod_cast (by omega : (0 : ℤ) ≤ m))]
    rw [Int.floor_intCast]
    rw [Int.emod_eq_of_lt (by omega) (by omega)]
    omega
  have htp : toInt32 (p95 : ℚ) = p95 := by
    rw [toInt32, jsTrunc,
      if_pos (by exact_mod_cast (by omega : (0 : ℤ) ≤ p95))]
    rw [Int.floor_intCast]
    rw [Int.emod_eq_of_lt (by omega) (by omega)]
    omega
  have hmax1 : max (1 : ℤ) m = m := max_eq_right hm
  have hmaxp : max (m + 1) p95 = p95 := max_eq_right hp
  constructor
  · refine ⟨clampZ (Real.sqrt (-2 * Real.log (max u1 ((jsEpsilon : ℚ) : ℝ)))
      * Real.cos (2 * Real.pi * max u2 ((jsEpsilon : ℚ) : ℝ))),
      clampZ_abs_le _, ?_⟩
    simp only [sampleLogNormalSeconds, htm, htp, hmax1, hmaxp, sigmaOf]
  · simp only [sampleLogNormalSeconds]
    exact le_max_left _ _

/-- C9 witness: the amended statement at `m = 2`, `p95 = 4`, `u1 = u2 = 1`. -/
theorem sampleLogNormalSeconds_amended_witness :
    (∃ z : ℝ, |z| ≤ 3.5 ∧
      sampleLogNormalSeconds ((2 : ℤ) : ℚ) ((4 : ℤ) : ℚ) 1 1
        = max 1 (round (Real.exp (Real.log ((2 : ℤ) : ℝ)
            + (Real.log ((4 : ℤ) : ℝ) - Real.log ((2 : ℤ) : ℝ)) / 1.64485
              * z)))) ∧
    1 ≤ sampleLogNormalSeconds ((2 : ℤ) : ℚ) ((4 : ℤ) : ℚ) 1 1 :=
  sampleLogNormalSeconds_amended 2 4 1 1 (by norm_num) (by norm_num)
    (by norm_num)
